import Mathlib

/-
  Verification of the SSE streaming client in client.go (package http,
  repository toaweme/http).  The Go code works on byte slices through the
  bytes package; a byte slice is modelled as a List Char.  Stateful channel
  interaction is modelled as the ordered trace of operations the client
  performs on the caller-supplied channel.
-/

set_option maxRecDepth 4000

namespace HttpSpec

/-- Model of bytes.HasPrefix from the Go standard library: hasPfx p s is
true when p is a leading segment of s. -/
def hasPfx : List Char → List Char → Bool
  | [], _ => true
  | _ :: _, [] => false
  | p :: ps, c :: cs => p == c && hasPfx ps cs

/-- Model of bytes.TrimPrefix: drops the given leading bytes when present,
returns the input unchanged otherwise. -/
def stripPfx (p s : List Char) : List Char :=
  if hasPfx p s then s.drop p.length else s

/-- Whitespace predicate of Go's unicode.IsSpace restricted to Latin-1, as
used by bytes.TrimSpace at client.go line 306. -/
def isGoSpace (c : Char) : Bool :=
  c == ' ' || c == '\t' || c == '\n' || c == '\u000B' || c == '\u000C' ||
    c == '\r' || c == '\u0085' || c == '\u00A0'

/-- Model of bytes.TrimSpace: removes leading and trailing whitespace. -/
def trimSpace (s : List Char) : List Char :=
  ((s.dropWhile isGoSpace).reverse.dropWhile isGoSpace).reverse

/-- Model of the Go error values the client builds and wraps: io.EOF, a
transport-level read failure (connection reset, timeout), fmt.Errorf with
a trailing %w wrapping verb, and fmt.Errorf without one. -/
inductive GoError where
  | ioEOF : GoError
  | connFail : String → GoError
  | wrap : String → GoError → GoError
  | errorf : String → GoError
deriving DecidableEq

/-- Model of errors.Is(err, io.EOF): unwraps the chain built by the %w verb
and checks whether it bottoms out at io.EOF. -/
def isEOFErr : GoError → Bool
  | GoError.ioEOF => true
  | GoError.wrap _ e => isEOFErr e
  | GoError.connFail _ => false
  | GoError.errorf _ => false

/-- The StreamResponseType constants of client.go lines 33-42. -/
inductive StreamResponseType where
  | eof : StreamResponseType
  | data : StreamResponseType
  | event : StreamResponseType
  | id : StreamResponseType
  | retry : StreamResponseType
  | comment : StreamResponseType
deriving DecidableEq

/-- StreamResponse, client.go lines 44-50.  Body is a byte slice (nil and
empty coincide as []); a nil Error is Option.none.  Headers is the
http.Header map captured from the response. -/
structure StreamResponse where
  statusCode : Nat
  body : List Char
  headers : List (String × List String)
  error : Option GoError
  type : StreamResponseType
deriving DecidableEq

/-- Consumer-side test on a terminal event: whether its error chain
indicates a clean end of stream (errors.Is(err, io.EOF)) rather than a
mid-stream read failure. -/
def terminalCleanClose (ev : StreamResponse) : Bool :=
  match ev.error with
  | none => true
  | some e => isEOFErr e

/-- An operation the client performs on the caller-supplied channel. -/
inductive ChanOp where
  | send : StreamResponse → ChanOp
  | close : ChanOp
deriving DecidableEq

/-- Result of classifying one trimmed line in the read loop. -/
inductive LineAction where
  | skip : LineAction
  | done : LineAction
  | emit : StreamResponseType → List Char → LineAction
deriving DecidableEq

/-- The per-line classification of doStream's read loop, client.go lines
305-337: an empty line is skipped; a "data: " line is stripped and, when
the remainder equals the [DONE] sentinel, ends the stream; the field
prefixes "event: ", "id: " and "retry: " are stripped in the source's
else-if order; a remaining line starting with a colon is a comment carried
unstripped; any other line is data carried verbatim. -/
def classifyLine (line : List Char) : LineAction :=
  if line.length = 0 then LineAction.skip
  else if hasPfx ("data: ".data) line then
    let rest := stripPfx ("data: ".data) line
    if rest = "[DONE]".data then LineAction.done
    else LineAction.emit StreamResponseType.data rest
  else if hasPfx ("event: ".data) line then
    LineAction.emit StreamResponseType.event (stripPfx ("event: ".data) line)
  else if hasPfx ("id: ".data) line then
    LineAction.emit StreamResponseType.id (stripPfx ("id: ".data) line)
  else if hasPfx ("retry: ".data) line then
    LineAction.emit StreamResponseType.retry (stripPfx ("retry: ".data) line)
  else if hasPfx (":".data) line then
    LineAction.emit StreamResponseType.comment line
  else LineAction.emit StreamResponseType.data line

/-- The goroutine body of doStream, client.go lines 282-349, as the list of
channel operations it performs.  The response body is given as the list of
lines successfully returned by reader.ReadBytes plus the error that
finally ends the loop (io.EOF on a clean close).  On that error the code
emits one EOF-kind event wrapping it and breaks; the deferred close then
runs.  On the [DONE] sentinel it emits one EOF-kind event with a nil
error and returns; the deferred close runs. -/
def pumpLoop (status : Nat) (hdrs : List (String × List String)) :
    List (List Char) → GoError → List ChanOp
  | [], term =>
      [ChanOp.send
        { statusCode := status, body := [], headers := hdrs,
          error := some (GoError.wrap "failed to read response body" term),
          type := StreamResponseType.eof },
       ChanOp.close]
  | raw :: rest, term =>
      match classifyLine (trimSpace raw) with
      | LineAction.skip => pumpLoop status hdrs rest term
      | LineAction.done =>
          [ChanOp.send
            { statusCode := status, body := [], headers := hdrs,
              error := none, type := StreamResponseType.eof },
           ChanOp.close]
      | LineAction.emit ty b =>
          ChanOp.send
            { statusCode := status, body := b, headers := hdrs,
              error := none, type := ty } ::
            pumpLoop status hdrs rest term

/-- The error fmt.Errorf builds at client.go line 261 for a non-200
status. -/
def unexpectedStatusErr (code : Nat) (body : List Char) : GoError :=
  GoError.errorf
    ("unexpected status code: " ++ toString code ++ ": " ++ String.mk body)

/-- The http.Response handed back by client.Do as doStream consumes it:
status, headers, the result of io.ReadAll on the body (used on the non-200
path), and the line sequence with its terminating error produced by
repeated reader.ReadBytes calls (used on the 200 path). -/
structure HttpResp where
  statusCode : Nat
  headers : List (String × List String)
  readAllResult : Except GoError (List Char)
  streamLines : List (List Char)
  streamTerminal : GoError

/-- doStream from the point client.Do returned a response, client.go lines
243-352.  The result is the ordered list of channel operations performed
(by the opening call and its goroutine together) and the opening call's
return value, where none models a nil error.  Failures before the response
arrives (request construction, send) return before any channel operation
and are outside this model. -/
def doStream (resp : HttpResp) : List ChanOp × Option GoError :=
  if resp.statusCode ≠ 200 then
    match resp.readAllResult with
    | Except.error e =>
        ([ChanOp.close],
         some (GoError.wrap "failed to read error response body" e))
    | Except.ok respBody =>
        let e := unexpectedStatusErr resp.statusCode respBody
        ([ChanOp.send
            { statusCode := resp.statusCode, body := respBody,
              headers := resp.headers, error := some e,
              type := StreamResponseType.eof },
          ChanOp.close],
         some e)
  else
    (pumpLoop resp.statusCode resp.headers resp.streamLines
      resp.streamTerminal,
     none)

/-- ClientRequestIDHeaderName, headers.go line 36. -/
def ClientRequestIDHeaderName : String := "X-Request-ID"

/-- ClientSessionIDHeaderName, headers.go line 31. -/
def ClientSessionIDHeaderName : String := "X-Session-ID"

/-- A Go map[string]string modelled as an association list with unique
keys; mapSet models map assignment m[k] = v (replace the binding when the
key is present, add it otherwise). -/
def mapSet : List (String × String) → String → String → List (String × String)
  | [], k, v => [(k, v)]
  | p :: rest, k, v =>
      if p.1 = k then (k, v) :: rest else p :: mapSet rest k v

/-- Map lookup m[k], returning none when the key is absent. -/
def mapGet : List (String × String) → String → Option String
  | [], _ => none
  | p :: rest, k => if p.1 = k then some p.2 else mapGet rest k

/-- The copy loops of buildRequestParams: assign every binding of src into
dst in order. -/
def mergeInto (dst src : List (String × String)) : List (String × String) :=
  src.foldl (fun acc p => mapSet acc p.1 p.2) dst

/-- The value the last binding of a key in a list of assignments would
leave in a map: the later assignment wins. -/
def lookupLast : List (String × String) → String → Option String
  | [], _ => none
  | p :: rest, k =>
      match lookupLast rest k with
      | some v => some v
      | none => if p.1 = k then some p.2 else none

/-- The header-merging part of buildRequestParams, client.go lines 355-368:
start from an empty map, copy the client's default headers, copy the
per-request header overrides, then set X-Request-ID from req.ID and
X-Session-ID from req.SessionID, each only when the field is non-empty. -/
def buildRequestHeaders (clientHeaders reqHeaders : List (String × String))
    (reqID sessionID : String) : List (String × String) :=
  let hs := mergeInto [] clientHeaders
  let hs := mergeInto hs reqHeaders
  let hs := if reqID = "" then hs else mapSet hs ClientRequestIDHeaderName reqID
  if sessionID = "" then hs else mapSet hs ClientSessionIDHeaderName sessionID

/-- The identity of a Go *http.Client pointer value. -/
structure GoPtr where
  addr : Nat
deriving DecidableEq

/-- The httpClient struct, client.go lines 73-80. -/
structure httpClient where
  baseURL : String
  agent : String
  client : GoPtr
  headers : List (String × String)
  log : Bool
deriving DecidableEq

/-- The body of SetClient, client.go lines 147-149, acting on the receiver
it is handed: it assigns the client field of that receiver. -/
def SetClient (h : httpClient) (c : GoPtr) : httpClient :=
  { h with client := c }

/-- A Go method call on a value receiver: the body runs on a copy of the
caller's struct, so whatever it assigns to the copy, the caller's struct
is the unchanged original afterwards.  SetClient is declared on the value
receiver h httpClient (client.go line 147). -/
def callSetClient (h : httpClient) (c : GoPtr) : httpClient :=
  let receiverCopy := h
  let _ := SetClient receiverCopy c
  h

/-- The *http.Client a subsequent do or doStream call uses: both call
h.client.Do (client.go lines 187 and 238). -/
def clientUsedByCalls (h : httpClient) : GoPtr := h.client

lemma hasPfx_head {a : Char} {p l : List Char} (h : hasPfx (a :: p) l = true) :
    ∃ t, l = a :: t ∧ hasPfx p t = true := by
  cases l with
  | nil => simp [hasPfx] at h
  | cons c cs =>
      simp only [hasPfx, Bool.and_eq_true, beq_iff_eq] at h
      exact ⟨cs, by rw [h.1], h.2⟩

lemma hasPfx_cons_false {a b : Char} {p t : List Char} (h : (a == b) = false) :
    hasPfx (a :: p) (b :: t) = false := by
  simp [hasPfx, h]

lemma stripPfx_of_pfx {p s : List Char} (h : hasPfx p s = true) :
    stripPfx p s = s.drop p.length := by
  simp [stripPfx, h]

lemma mapGet_mapSet_self (m : List (String × String)) (k v : String) :
    mapGet (mapSet m k v) k = some v := by
  induction m with
  | nil => simp [mapSet, mapGet]
  | cons p rest ih =>
      obtain ⟨a, b⟩ := p
      by_cases hp : a = k
      · subst hp; simp [mapSet, mapGet]
      · simp [mapSet, hp, mapGet, ih]

lemma mapGet_mapSet_ne (m : List (String × String)) (k v k' : String)
    (h : k' ≠ k) : mapGet (mapSet m k v) k' = mapGet m k' := by
  induction m with
  | nil => simp [mapSet, mapGet, Ne.symm h]
  | cons p rest ih =>
      obtain ⟨a, b⟩ := p
      by_cases hp : a = k
      · subst hp; simp [mapSet, mapGet, Ne.symm h]
      · by_cases ha : a = k'
        · simp [mapSet, hp, mapGet, ha, h]
        · simp [mapSet, hp, mapGet, ha, h, ih]

lemma mergeInto_cons (m : List (String × String)) (p : String × String)
    (src : List (String × String)) :
    mergeInto m (p :: src) = mergeInto (mapSet m p.1 p.2) src := rfl

lemma mapGet_mergeInto (src : List (String × String)) :
    ∀ (m : List (String × String)) (k : String),
      mapGet (mergeInto m src) k =
        match lookupLast src k with
        | some v => some v
        | none => mapGet m k := by
  induction src with
  | nil => intro m k; simp [mergeInto, lookupLast]
  | cons p rest ih =>
      intro m k
      obtain ⟨a, b⟩ := p
      rw [mergeInto_cons, ih]
      cases hl : lookupLast rest k with
      | some v => simp [lookupLast, hl]
      | none =>
          by_cases hak : a = k
          · subst hak; simp [lookupLast, hl, mapGet_mapSet_self]
          · simp [lookupLast, hl, hak,
              mapGet_mapSet_ne _ _ _ _ (Ne.symm hak)]

lemma data_pfx_chars : "data: ".data = ['d', 'a', 't', 'a', ':', ' '] := rfl

lemma event_pfx_chars : "event: ".data = ['e', 'v', 'e', 'n', 't', ':', ' '] := rfl

lemma id_pfx_chars : "id: ".data = ['i', 'd', ':', ' '] := rfl

lemma retry_pfx_chars : "retry: ".data = ['r', 'e', 't', 'r', 'y', ':', ' '] := rfl

lemma colon_chars : ":".data = [':'] := rfl

lemma beq_false_of_ne {a b : Char} (h : a ≠ b) : (a == b) = false := by
  cases hq : a == b
  · rfl
  · exact absurd (eq_of_beq hq) h

lemma classify_data {line : List Char}
    (h : hasPfx ("data: ".data) line = true)
    (hnd : line.drop 6 ≠ "[DONE]".data) :
    classifyLine line = LineAction.emit StreamResponseType.data (line.drop 6) := by
  have hstrip : stripPfx ("data: ".data) line = line.drop 6 := stripPfx_of_pfx h
  have h2 := h
  rw [data_pfx_chars] at h2
  obtain ⟨t, ht, -⟩ := hasPfx_head h2
  have hlen : ¬ line.length = 0 := by subst ht; simp
  unfold classifyLine
  rw [if_neg hlen, if_pos h]
  simp only [hstrip]
  rw [if_neg hnd]

lemma classify_done_sentinel :
    classifyLine ("data: [DONE]".data) = LineAction.done := by decide

lemma classify_event {line : List Char}
    (h : hasPfx ("event: ".data) line = true) :
    classifyLine line = LineAction.emit StreamResponseType.event (line.drop 7) := by
  have hstrip : stripPfx ("event: ".data) line = line.drop 7 := stripPfx_of_pfx h
  have h2 := h
  rw [event_pfx_chars] at h2
  obtain ⟨t, ht, -⟩ := hasPfx_head h2
  subst ht
  have hD : hasPfx ("data: ".data) ('e' :: t) = false := by
    rw [data_pfx_chars]; exact hasPfx_cons_false (by decide)
  unfold classifyLine
  rw [if_neg (by simp : ¬ (('e' :: t).length = 0)), if_neg (by simp [hD]),
    if_pos h, hstrip]

lemma classify_id {line : List Char}
    (h : hasPfx ("id: ".data) line = true) :
    classifyLine line = LineAction.emit StreamResponseType.id (line.drop 4) := by
  have hstrip : stripPfx ("id: ".data) line = line.drop 4 := stripPfx_of_pfx h
  have h2 := h
  rw [id_pfx_chars] at h2
  obtain ⟨t, ht, -⟩ := hasPfx_head h2
  subst ht
  have hD : hasPfx ("data: ".data) ('i' :: t) = false := by
    rw [data_pfx_chars]; exact hasPfx_cons_false (by decide)
  have hE : hasPfx ("event: ".data) ('i' :: t) = false := by
    rw [event_pfx_chars]; exact hasPfx_cons_false (by decide)
  unfold classifyLine
  rw [if_neg (by simp : ¬ (('i' :: t).length = 0)), if_neg (by simp [hD]),
    if_neg (by simp [hE]), if_pos h, hstrip]

lemma classify_retry {line : List Char}
    (h : hasPfx ("retry: ".data) line = true) :
    classifyLine line = LineAction.emit StreamResponseType.retry (line.drop 7) := by
  have hstrip : stripPfx ("retry: ".data) line = line.drop 7 := stripPfx_of_pfx h
  have h2 := h
  rw [retry_pfx_chars] at h2
  obtain ⟨t, ht, -⟩ := hasPfx_head h2
  subst ht
  have hD : hasPfx ("data: ".data) ('r' :: t) = false := by
    rw [data_pfx_chars]; exact hasPfx_cons_false (by decide)
  have hE : hasPfx ("event: ".data) ('r' :: t) = false := by
    rw [event_pfx_chars]; exact hasPfx_cons_false (by decide)
  have hI : hasPfx ("id: ".data) ('r' :: t) = false := by
    rw [id_pfx_chars]; exact hasPfx_cons_false (by decide)
  unfold classifyLine
  rw [if_neg (by simp : ¬ (('r' :: t).length = 0)), if_neg (by simp [hD]),
    if_neg (by simp [hE]), if_neg (by simp [hI]), if_pos h, hstrip]

lemma classify_comment {line : List Char}
    (hne : line ≠ [])
    (h1 : hasPfx ("data: ".data) line = false)
    (h2 : hasPfx ("event: ".data) line = false)
    (h3 : hasPfx ("id: ".data) line = false)
    (h4 : hasPfx ("retry: ".data) line = false)
    (h5 : hasPfx (":".data) line = true) :
    classifyLine line = LineAction.emit StreamResponseType.comment line := by
  have hlen : ¬ line.length = 0 := fun hl => hne (List.length_eq_zero.mp hl)
  unfold classifyLine
  rw [if_neg hlen, if_neg (by simp [h1]), if_neg (by simp [h2]),
    if_neg (by simp [h3]), if_neg (by simp [h4]), if_pos h5]

lemma pumpLoop_cons (s : Nat) (hdrs : List (String × List String))
    (raw : List Char) (rest : List (List Char)) (term : GoError) :
    pumpLoop s hdrs (raw :: rest) term =
      match classifyLine (trimSpace raw) with
      | LineAction.skip => pumpLoop s hdrs rest term
      | LineAction.done =>
          [ChanOp.send
            { statusCode := s, body := [], headers := hdrs,
              error := none, type := StreamResponseType.eof },
           ChanOp.close]
      | LineAction.emit ty b =>
          ChanOp.send
            { statusCode := s, body := b, headers := hdrs,
              error := none, type := ty } ::
            pumpLoop s hdrs rest term := rfl

lemma pumpLoop_cons_skip {s : Nat} {hdrs : List (String × List String)}
    {raw : List Char} {rest : List (List Char)} {term : GoError}
    (h : classifyLine (trimSpace raw) = LineAction.skip) :
    pumpLoop s hdrs (raw :: rest) term = pumpLoop s hdrs rest term := by
  rw [pumpLoop_cons, h]

lemma pumpLoop_cons_done {s : Nat} {hdrs : List (String × List String)}
    {raw : List Char} {rest : List (List Char)} {term : GoError}
    (h : classifyLine (trimSpace raw) = LineAction.done) :
    pumpLoop s hdrs (raw :: rest) term =
      [ChanOp.send
        { statusCode := s, body := [], headers := hdrs,
          error := none, type := StreamResponseType.eof },
       ChanOp.close] := by
  rw [pumpLoop_cons, h]

lemma pumpLoop_cons_emit {s : Nat} {hdrs : List (String × List String)}
    {raw : List Char} {rest : List (List Char)} {term : GoError}
    {ty : StreamResponseType} {b : List Char}
    (h : classifyLine (trimSpace raw) = LineAction.emit ty b) :
    pumpLoop s hdrs (raw :: rest) term =
      ChanOp.send
        { statusCode := s, body := b, headers := hdrs,
          error := none, type := ty } ::
        pumpLoop s hdrs rest term := by
  rw [pumpLoop_cons, h]

lemma pfx_precedence (line : List Char) :
    ([("data: ".data), ("event: ".data), ("id: ".data), ("retry: ".data),
      (":".data)].countP (fun p => hasPfx p line)) ≤ 1 := by
  cases line with
  | nil => decide
  | cons c t =>
      have hf : ∀ (a : Char) (p : List Char), a ≠ c →
          hasPfx (a :: p) (c :: t) = false :=
        fun a p hne => hasPfx_cons_false (beq_false_of_ne hne)
      simp only [data_pfx_chars, event_pfx_chars, id_pfx_chars,
        retry_pfx_chars, colon_chars, List.countP_cons, List.countP_nil]
      by_cases h1 : c = 'd'
      · subst h1
        rw [hf 'e' _ (by decide), hf 'i' _ (by decide), hf 'r' _ (by decide),
          hf ':' _ (by decide)]
        simp only [Bool.false_eq_true, if_false, Nat.zero_add, Nat.add_zero]
        split <;> simp
      · by_cases h2 : c = 'e'
        · subst h2
          rw [hf 'd' _ (by decide), hf 'i' _ (by decide),
            hf 'r' _ (by decide), hf ':' _ (by decide)]
          simp only [Bool.false_eq_true, if_false, Nat.zero_add, Nat.add_zero]
          split <;> simp
        · by_cases h3 : c = 'i'
          · subst h3
            rw [hf 'd' _ (by decide), hf 'e' _ (by decide),
              hf 'r' _ (by decide), hf ':' _ (by decide)]
            simp only [Bool.false_eq_true, if_false, Nat.zero_add, Nat.add_zero]
            split <;> simp
          · by_cases h4 : c = 'r'
            · subst h4
              rw [hf 'd' _ (by decide), hf 'e' _ (by decide),
                hf 'i' _ (by decide), hf ':' _ (by decide)]
              simp only [Bool.false_eq_true, if_false, Nat.zero_add, Nat.add_zero]
              split <;> simp
            · by_cases h5 : c = ':'
              · subst h5
                rw [hf 'd' _ (by decide), hf 'e' _ (by decide),
                  hf 'i' _ (by decide), hf 'r' _ (by decide)]
                simp only [Bool.false_eq_true, if_false, Nat.zero_add, Nat.add_zero]
                split <;> simp
              · rw [hf 'd' _ (fun he => h1 he.symm),
                  hf 'e' _ (fun he => h2 he.symm),
                  hf 'i' _ (fun he => h3 he.symm),
                  hf 'r' _ (fun he => h4 he.symm),
                  hf ':' _ (fun he => h5 he.symm)]
                simp

lemma pumpLoop_close (s : Nat) (hdrs : List (String × List String))
    (lines : List (List Char)) (term : GoError) :
    ∃ pre, pumpLoop s hdrs lines term = pre ++ [ChanOp.close] ∧
      ChanOp.close ∉ pre := by
  induction lines with
  | nil =>
      exact ⟨[ChanOp.send _], rfl,
        fun h => ChanOp.noConfusion (List.mem_singleton.mp h)⟩
  | cons raw rest ih =>
      cases hcl : classifyLine (trimSpace raw) with
      | skip => rw [pumpLoop_cons_skip hcl]; exact ih
      | done =>
          rw [pumpLoop_cons_done hcl]
          exact ⟨[ChanOp.send _], rfl,
            fun h => ChanOp.noConfusion (List.mem_singleton.mp h)⟩
      | emit ty b =>
          rw [pumpLoop_cons_emit hcl]
          obtain ⟨pre, hpre, hmem⟩ := ih
          refine ⟨ChanOp.send _ :: pre, by rw [hpre]; rfl, fun h => ?_⟩
          rcases List.mem_cons.mp h with h' | h'
          · exact ChanOp.noConfusion h'
          · exact hmem h'

/-- C1, counterexample: the claim says that for a successfully sent
streaming request with a non-200 status the opening call returns a nil
error.  At status 500 with error body "server error" read successfully,
doStream's return value is not nil (client.go line 275 returns the
unexpected-status error). -/
theorem C1_counterexample :
    ¬ ((doStream
      { statusCode := 500, headers := [],
        readAllResult := Except.ok ("server error".data),
        streamLines := [], streamTerminal := GoError.ioEOF }).2 = none) := by
  decide

/-- C1, amended: for a streaming call whose request is sent successfully
and whose response status is not 200, when the error body reads
successfully the opening call returns the non-nil unexpected-status error,
and the same error is also surfaced in-band on the channel: the failure
appears both as the call's return value and in the single terminal event,
not only in-band. -/
theorem C1_amended_error_on_both_paths (resp : HttpResp) (b : List Char)
    (hs : resp.statusCode ≠ 200)
    (hb : resp.readAllResult = Except.ok b) :
    ∃ e ev, doStream resp = ([ChanOp.send ev, ChanOp.close], some e) ∧
      ev.error = some e := by
  have hd : doStream resp =
      ([ChanOp.send
          { statusCode := resp.statusCode, body := b,
            headers := resp.headers,
            error := some (unexpectedStatusErr resp.statusCode b),
            type := StreamResponseType.eof },
        ChanOp.close],
       some (unexpectedStatusErr resp.statusCode b)) := by
    unfold doStream
    rw [if_pos hs, hb]
  exact ⟨_, _, hd, rfl⟩

/-- C1, witness for the amended theorem at status 500 with body
"server error". -/
theorem C1_witness :
    ∃ e ev, doStream
      { statusCode := 500, headers := [],
        readAllResult := Except.ok ("server error".data),
        streamLines := [], streamTerminal := GoError.ioEOF } =
        ([ChanOp.send ev, ChanOp.close], some e) ∧ ev.error = some e :=
  C1_amended_error_on_both_paths _ _ (by decide) rfl

/-- C2: when the streaming loop's line sequence terminates, the pump sends
exactly one terminal EOF-kind event whose error wraps the read error with
the %w verb, so the terminal event alone distinguishes a clean close
(io.EOF) from a mid-stream read failure: the consumer-side discriminator
terminalCleanClose applied to the event agrees with errors.Is(err, io.EOF)
on the underlying read error. -/
theorem C2_terminal_event_distinguishes (s : Nat)
    (hdrs : List (String × List String)) (term : GoError) :
    ∃ ev, pumpLoop s hdrs [] term = [ChanOp.send ev, ChanOp.close] ∧
      ev.type = StreamResponseType.eof ∧
      ev.error = some (GoError.wrap "failed to read response body" term) ∧
      terminalCleanClose ev = isEOFErr term :=
  ⟨_, rfl, rfl, rfl, rfl⟩

/-- C3: for a non-200 status whose error body reads successfully, exactly
one EOF-kind event carrying the full error body, the status code and a
non-nil error is sent, then the channel is closed; no other event of any
kind is ever sent. -/
theorem C3_non200_single_eof_event (resp : HttpResp) (b : List Char)
    (hs : resp.statusCode ≠ 200)
    (hb : resp.readAllResult = Except.ok b) :
    doStream resp =
      ([ChanOp.send
          { statusCode := resp.statusCode, body := b,
            headers := resp.headers,
            error := some (unexpectedStatusErr resp.statusCode b),
            type := StreamResponseType.eof },
        ChanOp.close],
       some (unexpectedStatusErr resp.statusCode b)) := by
  unfold doStream
  rw [if_pos hs, hb]

/-- C3, witness at status 500 with body "server error". -/
theorem C3_witness :
    doStream
      { statusCode := 500, headers := [],
        readAllResult := Except.ok ("server error".data),
        streamLines := [], streamTerminal := GoError.ioEOF } =
      ([ChanOp.send
          { statusCode := 500, body := "server error".data, headers := [],
            error := some (unexpectedStatusErr 500 ("server error".data)),
            type := StreamResponseType.eof },
        ChanOp.close],
       some (unexpectedStatusErr 500 ("server error".data))) :=
  C3_non200_single_eof_event _ _ (by decide) rfl

/-- C4: when the trimmed line is exactly "data: [DONE]", the pump emits
exactly one EOF-kind event with a nil error and the channel is closed; no
further events are sent regardless of any remaining lines. -/
theorem C4_done_sentinel (s : Nat) (hdrs : List (String × List String))
    (raw : List Char) (rest : List (List Char)) (term : GoError)
    (h : trimSpace raw = "data: [DONE]".data) :
    pumpLoop s hdrs (raw :: rest) term =
      [ChanOp.send
        { statusCode := s, body := [], headers := hdrs,
          error := none, type := StreamResponseType.eof },
       ChanOp.close] :=
  pumpLoop_cons_done (by rw [h]; exact classify_done_sentinel)

/-- C4, witness: the sentinel line followed by a further data line which is
never delivered. -/
theorem C4_witness :
    pumpLoop 200 [] ["data: [DONE]\n".data, "data: ignored\n".data]
      GoError.ioEOF =
      [ChanOp.send
        { statusCode := 200, body := [], headers := [],
          error := none, type := StreamResponseType.eof },
       ChanOp.close] :=
  C4_done_sentinel _ _ _ _ _ (by decide)

/-- C5: a non-empty trimmed line starting with "data: " whose remainder is
not the sentinel yields exactly one Data-kind event whose body is the line
with the 6-character prefix stripped (and Data is not the Comment kind),
after which the pump continues with the remaining lines. -/
theorem C5_data_line (s : Nat) (hdrs : List (String × List String))
    (raw : List Char) (rest : List (List Char)) (term : GoError)
    (_hne : trimSpace raw ≠ [])
    (hp : hasPfx ("data: ".data) (trimSpace raw) = true)
    (hnd : (trimSpace raw).drop 6 ≠ "[DONE]".data) :
    pumpLoop s hdrs (raw :: rest) term =
      ChanOp.send
        { statusCode := s, body := (trimSpace raw).drop 6, headers := hdrs,
          error := none, type := StreamResponseType.data } ::
        pumpLoop s hdrs rest term
    ∧ StreamResponseType.data ≠ StreamResponseType.comment :=
  ⟨pumpLoop_cons_emit (classify_data hp hnd), by decide⟩

/-- C5, witness on the line "data: hello". -/
theorem C5_witness :
    pumpLoop 200 [] ["data: hello\n".data] GoError.ioEOF =
      ChanOp.send
        { statusCode := 200,
          body := (trimSpace ("data: hello\n".data)).drop 6, headers := [],
          error := none, type := StreamResponseType.data } ::
        pumpLoop 200 [] [] GoError.ioEOF
    ∧ StreamResponseType.data ≠ StreamResponseType.comment :=
  C5_data_line _ _ _ _ _ (by decide) (by decide) (by decide)

/-- C6: lines prefixed "event: ", "id: " or "retry: " emit exactly one
event of the corresponding kind with exactly the matching prefix stripped
(7, 4 and 7 characters respectively); a non-empty line matching none of
the field prefixes but starting with a colon emits one Comment-kind event
carrying the full trimmed line unstripped; and no line matches two of the
classifier's prefixes, so the precedence order is vacuous-safe. -/
theorem C6_field_prefixes :
    (∀ (s : Nat) (hdrs : List (String × List String)) (raw : List Char)
        (rest : List (List Char)) (term : GoError),
      (hasPfx ("event: ".data) (trimSpace raw) = true →
        pumpLoop s hdrs (raw :: rest) term =
          ChanOp.send
            { statusCode := s, body := (trimSpace raw).drop 7,
              headers := hdrs, error := none,
              type := StreamResponseType.event } ::
            pumpLoop s hdrs rest term) ∧
      (hasPfx ("id: ".data) (trimSpace raw) = true →
        pumpLoop s hdrs (raw :: rest) term =
          ChanOp.send
            { statusCode := s, body := (trimSpace raw).drop 4,
              headers := hdrs, error := none,
              type := StreamResponseType.id } ::
            pumpLoop s hdrs rest term) ∧
      (hasPfx ("retry: ".data) (trimSpace raw) = true →
        pumpLoop s hdrs (raw :: rest) term =
          ChanOp.send
            { statusCode := s, body := (trimSpace raw).drop 7,
              headers := hdrs, error := none,
              type := StreamResponseType.retry } ::
            pumpLoop s hdrs rest term) ∧
      (trimSpace raw ≠ [] →
        hasPfx ("data: ".data) (trimSpace raw) = false →
        hasPfx ("event: ".data) (trimSpace raw) = false →
        hasPfx ("id: ".data) (trimSpace raw) = false →
        hasPfx ("retry: ".data) (trimSpace raw) = false →
        hasPfx (":".data) (trimSpace raw) = true →
        pumpLoop s hdrs (raw :: rest) term =
          ChanOp.send
            { statusCode := s, body := trimSpace raw, headers := hdrs,
              error := none, type := StreamResponseType.comment } ::
            pumpLoop s hdrs rest term)) ∧
    (∀ line : List Char,
      ([("data: ".data), ("event: ".data), ("id: ".data), ("retry: ".data),
        (":".data)].countP (fun p => hasPfx p line)) ≤ 1) := by
  constructor
  · intro s hdrs raw rest term
    exact ⟨fun h => pumpLoop_cons_emit (classify_event h),
      fun h => pumpLoop_cons_emit (classify_id h),
      fun h => pumpLoop_cons_emit (classify_retry h),
      fun hne h1 h2 h3 h4 h5 =>
        pumpLoop_cons_emit (classify_comment hne h1 h2 h3 h4 h5)⟩
  · exact pfx_precedence

/-- C6, witness on the lines "event: ping" and ": keep-alive". -/
theorem C6_witness :
    (pumpLoop 200 [] ["event: ping\n".data] GoError.ioEOF =
      ChanOp.send
        { statusCode := 200,
          body := (trimSpace ("event: ping\n".data)).drop 7, headers := [],
          error := none, type := StreamResponseType.event } ::
        pumpLoop 200 [] [] GoError.ioEOF) ∧
    (pumpLoop 200 [] [": keep-alive\n".data] GoError.ioEOF =
      ChanOp.send
        { statusCode := 200, body := trimSpace (": keep-alive\n".data),
          headers := [], error := none,
          type := StreamResponseType.comment } ::
        pumpLoop 200 [] [] GoError.ioEOF) :=
  ⟨(C6_field_prefixes.1 200 [] ("event: ping\n".data) [] GoError.ioEOF).1
      (by decide),
   (C6_field_prefixes.1 200 [] (": keep-alive\n".data) []
      GoError.ioEOF).2.2.2 (by decide) (by decide) (by decide) (by decide)
      (by decide) (by decide)⟩

/-- C7: on every path of doStream that touches the channel (non-200
short-circuit with or without a readable error body, sentinel, read
failure), the producer's operation trace ends in a close that is the only
close in the trace: the channel is closed exactly once, only by the
producer, and nothing is sent after the close. -/
theorem C7_close_exactly_once (resp : HttpResp) :
    ∃ pre, (doStream resp).1 = pre ++ [ChanOp.close] ∧
      ChanOp.close ∉ pre := by
  unfold doStream
  by_cases hs : resp.statusCode ≠ 200
  · rw [if_pos hs]
    cases hb : resp.readAllResult with
    | error e => exact ⟨[], rfl, by simp⟩
    | ok b =>
        exact ⟨[ChanOp.send _], rfl,
          fun h => ChanOp.noConfusion (List.mem_singleton.mp h)⟩
  · rw [if_neg hs]
    exact pumpLoop_close _ _ _ _

/-- C8: for every key, the final header map of buildRequestParams is the
client defaults overridden by the per-request headers, overridden by the
correlation headers X-Request-ID and X-Session-ID, each of which is only
set when its source field is non-empty: the later merge phase wins. -/
theorem C8_header_merge_order (ch rh : List (String × String))
    (rid sid : String) (k : String) :
    mapGet (buildRequestHeaders ch rh rid sid) k =
      if k = ClientRequestIDHeaderName ∧ rid ≠ "" then some rid
      else if k = ClientSessionIDHeaderName ∧ sid ≠ "" then some sid
      else
        match lookupLast rh k with
        | some v => some v
        | none => lookupLast ch k := by
  have hbase : mapGet (mergeInto (mergeInto [] ch) rh) k =
      (match lookupLast rh k with
       | some v => some v
       | none => lookupLast ch k) := by
    rw [mapGet_mergeInto]
    cases lookupLast rh k with
    | some v => rfl
    | none =>
        rw [mapGet_mergeInto]
        cases lookupLast ch k with
        | some v => rfl
        | none => rfl
  simp only [buildRequestHeaders]
  by_cases hrid : rid = ""
  · rw [if_pos hrid]
    by_cases hsid : sid = ""
    · rw [if_pos hsid, hbase, if_neg (by simp [hrid]),
        if_neg (by simp [hsid])]
    · rw [if_neg hsid]
      by_cases hk2 : k = ClientSessionIDHeaderName
      · subst hk2
        rw [mapGet_mapSet_self, if_neg (by simp [hrid]),
          if_pos ⟨rfl, hsid⟩]
      · rw [mapGet_mapSet_ne _ _ _ _ hk2, hbase,
          if_neg (by simp [hrid]), if_neg (by simp [hk2])]
  · rw [if_neg hrid]
    by_cases hsid : sid = ""
    · rw [if_pos hsid]
      by_cases hk1 : k = ClientRequestIDHeaderName
      · subst hk1
        rw [mapGet_mapSet_self, if_pos ⟨rfl, hrid⟩]
      · rw [mapGet_mapSet_ne _ _ _ _ hk1, hbase,
          if_neg (by simp [hk1]), if_neg (by simp [hsid])]
    · rw [if_neg hsid]
      by_cases hk2 : k = ClientSessionIDHeaderName
      · subst hk2
        rw [mapGet_mapSet_self,
          if_neg (fun hc => absurd hc.1 (by decide)),
          if_pos ⟨rfl, hsid⟩]
      · rw [mapGet_mapSet_ne _ _ _ _ hk2]
        by_cases hk1 : k = ClientRequestIDHeaderName
        · subst hk1
          rw [mapGet_mapSet_self, if_pos ⟨rfl, hrid⟩]
        · rw [mapGet_mapSet_ne _ _ _ _ hk1, hbase,
            if_neg (by simp [hk1]), if_neg (by simp [hk2])]

/-- C9: SetClient is declared on a value receiver, so a call mutates only
the method's copy of the struct: the *http.Client that every subsequent
do/doStream call uses (h.client) is unchanged by the call, even though the
method body itself does assign the new client to its receiver. -/
theorem C9_setclient_no_effect (h : httpClient) (c : GoPtr) :
    clientUsedByCalls (callSetClient h c) = clientUsedByCalls h ∧
    (SetClient h c).client = c :=
  ⟨rfl, rfl⟩

/-- C10: for a non-200 status whose error body read itself fails, the
channel is closed with no event ever sent on it, and the wrapped read
failure is returned synchronously as the opening call's error. -/
theorem C10_non200_body_read_failure (resp : HttpResp) (e : GoError)
    (hs : resp.statusCode ≠ 200)
    (hb : resp.readAllResult = Except.error e) :
    doStream resp =
      ([ChanOp.close],
       some (GoError.wrap "failed to read error response body" e)) := by
  unfold doStream
  rw [if_pos hs, hb]

/-- C10, witness at status 503 with a failing body read. -/
theorem C10_witness :
    doStream
      { statusCode := 503, headers := [],
        readAllResult := Except.error (GoError.connFail "connection reset"),
        streamLines := [], streamTerminal := GoError.ioEOF } =
      ([ChanOp.close],
       some (GoError.wrap "failed to read error response body"
         (GoError.connFail "connection reset"))) :=
  C10_non200_body_read_failure _ _ (by decide) rfl

end HttpSpec
